import Mathlib

/-!
Verification of the SVG-to-display-entity converter.

Shallow embedding of the core geometry pipeline:
coordinates are exact rationals (the JavaScript source computes with
IEEE doubles; the fixed tolerance `EPSILON = 1e-8` is kept verbatim),
polygons are rings of rational points, and the display-entity tree is a
mutual inductive (a node together with its ordered passenger list).
Every definition is translated from the corresponding source function;
comments name the source file and function.
-/

/-- A 2D vector / point, as in `utils.js` (pair of numbers). -/
abbrev Vec2 := ℚ × ℚ

/-- The fixed absolute tolerance `EPSILON = 1e-8` from `utils.js` / `polygon.js`. -/
def EPSILON : ℚ := 1 / 100000000

namespace vec2

/-- `vec2.add` from `utils.js`. -/
def add (a b : Vec2) : Vec2 := (a.1 + b.1, a.2 + b.2)

/-- `vec2.sub` from `utils.js`. -/
def sub (a b : Vec2) : Vec2 := (a.1 - b.1, a.2 - b.2)

/-- `vec2.scale` from `utils.js`. -/
def scale (a : Vec2) (s : ℚ) : Vec2 := (a.1 * s, a.2 * s)

/-- `vec2.dot` from `utils.js`. -/
def dot (a b : Vec2) : ℚ := a.1 * b.1 + a.2 * b.2

/-- `vec2.cross` from `utils.js`. -/
def cross (a b : Vec2) : ℚ := a.1 * b.2 - a.2 * b.1

/-- `vec2.equal` from `utils.js`: both coordinate deltas below `EPSILON`. -/
def equal (a b : Vec2) : Bool :=
  decide (|a.1 - b.1| < EPSILON) && decide (|a.2 - b.2| < EPSILON)

/-- `vec2.isParallel` from `utils.js`: `|cross a b| < EPSILON`. -/
def isParallel (a b : Vec2) : Bool := decide (|cross a b| < EPSILON)

/-- Squared Euclidean norm of a vector.  `vec2.length` in `utils.js` is
`Math.hypot x y = sqrt (x^2 + y^2)`; the square is the rational part. -/
def normSq (a : Vec2) : ℚ := a.1 * a.1 + a.2 * a.2

/-- Decides `|sqrt a - sqrt b| < EPSILON` for nonnegative rationals `a`, `b`
by squaring twice:  `|√a - √b| < ε  ↔  a + b - ε² < 2·√(a·b)  ↔
a + b - ε² < 0 ∨ (a + b - ε²)² < 4·a·b`.  This is the executable form of the
length-equality test `Math.abs(vec2.length u - vec2.length v) < EPSILON`
used by `Polygon.isParallelogram` in `polygon.js` (see
`sqrtClose_iff_sqrt_lt` below for the proof that it decides exactly that
real-number comparison). -/
def sqrtClose (a b : ℚ) : Bool :=
  decide (a + b - EPSILON ^ 2 < 0) || decide ((a + b - EPSILON ^ 2) ^ 2 < 4 * a * b)

end vec2

/-- `Polygon` from `polygon.js`: outer ring, hole rings, fill color. -/
structure Polygon where
  points : List Vec2
  holes : List (List Vec2)
  color : String := "#000"
deriving DecidableEq

namespace Polygon

/-- `Polygon.hasHole` from `polygon.js`: `holes.length > 0`. -/
def hasHole (p : Polygon) : Bool := decide (p.holes.length > 0)

/-- `Polygon.isTriangle` from `polygon.js`: no holes and exactly 3 points. -/
def isTriangle (p : Polygon) : Bool := !p.hasHole && decide (p.points.length = 3)

/-- `Polygon.clone` from `polygon.js`: deep copy of points, holes and color. -/
def clone (p : Polygon) : Polygon :=
  { points := p.points.map (fun q => q),
    holes := p.holes.map (fun h => h.map (fun q => q)),
    color := p.color }

/-- `Polygon.isCounterClockwise` from `polygon.js`: the edge sum
`Σ (x2 - x1) * (y2 + y1)` over the cyclic ring is negative. -/
def isCounterClockwise (points : List Vec2) : Bool :=
  decide ((List.range points.length).foldl
    (fun sum i =>
      let p1 := points.getD i (0, 0)
      let p2 := points.getD ((i + 1) % points.length) (0, 0)
      sum + (p2.1 - p1.1) * (p2.2 + p1.2)) 0 < 0)

/-- `Polygon.isReflex` from `polygon.js`: the cross product of the two
incident edge vectors at `p2` is negative. -/
def isReflex (p1 p2 p3 : Vec2) : Bool :=
  decide (vec2.cross (vec2.sub p2 p1) (vec2.sub p3 p2) < 0)

/-- `Polygon.isConvex` from `polygon.js`: counterclockwise, no holes, and
no reflex vertex (the source iterates `i = 0 .. n-1` and indexes the ring
cyclically; `(i - 1 + n) % n` is written `(i + n - 1) % n` over `ℕ`). -/
def isConvex (p : Polygon) : Bool :=
  isCounterClockwise p.points && !p.hasHole &&
    (List.range p.points.length).all (fun i =>
      let n := p.points.length
      !(isReflex (p.points.getD ((i + n - 1) % n) (0, 0)) (p.points.getD i (0, 0))
          (p.points.getD ((i + 1) % n) (0, 0))))

/-- `Polygon.isParallelogram` from `polygon.js`: no holes, 4 points, both
pairs of opposite sides parallel and of equal length (length equality is the
`EPSILON` test on real lengths, decided by `vec2.sqrtClose` on the squared
norms). -/
def isParallelogram (p : Polygon) : Bool :=
  if p.hasHole || !decide (p.points.length = 4) then false
  else
    let p0 := p.points.getD 0 (0, 0)
    let p1 := p.points.getD 1 (0, 0)
    let p2 := p.points.getD 2 (0, 0)
    let p3 := p.points.getD 3 (0, 0)
    let v01 := vec2.sub p1 p0
    let v23 := vec2.sub p3 p2
    let v12 := vec2.sub p2 p1
    let v30 := vec2.sub p0 p3
    vec2.isParallel v01 v23 && vec2.sqrtClose (vec2.normSq v01) (vec2.normSq v23) &&
      vec2.isParallel v12 v30 && vec2.sqrtClose (vec2.normSq v12) (vec2.normSq v30)

/-- `Polygon.removeColinear` from `polygon.js`: keep each vertex whose two
incident edge vectors have `|cross| > EPSILON`; rings with fewer than 3
points are returned unchanged. -/
def removeColinear (points : List Vec2) : List Vec2 :=
  if points.length < 3 then points
  else
    (List.range points.length).filterMap (fun i =>
      let n := points.length
      let a := points.getD ((i + n - 1) % n) (0, 0)
      let b := points.getD i (0, 0)
      let c := points.getD ((i + 1) % n) (0, 0)
      let ab := (b.1 - a.1, b.2 - a.2)
      let bc := (c.1 - b.1, c.2 - b.2)
      let cr := ab.1 * bc.2 - ab.2 * bc.1
      if |cr| > EPSILON then some b else none)

/-- `Polygon.simplify` from `polygon.js`: clone, then remove colinear
vertices from the outer ring and from every hole ring. -/
def simplify (p : Polygon) : Polygon :=
  { points := removeColinear p.clone.points,
    holes := p.clone.holes.map removeColinear,
    color := p.clone.color }

/-- The `onSeg` helper inside `Polygon.isInside` (`polygon.js`): the query
point is colinear with the edge within `EPSILON` and inside its bounding box. -/
def onSegB (px py : ℚ) (a b : Vec2) : Bool :=
  let cr := (px - a.1) * (b.2 - a.2) - (py - a.2) * (b.1 - a.1)
  if decide (|cr| > EPSILON) then false
  else
    decide (px ≥ min a.1 b.1 - EPSILON) && decide (px ≤ max a.1 b.1 + EPSILON) &&
      decide (py ≥ min a.2 b.2 - EPSILON) && decide (py ≤ max a.2 b.2 + EPSILON)

/-- The `checkBoundary` helper inside `Polygon.isInside` (`polygon.js`):
the point lies on some edge of the ring (edges run `pts[j] → pts[i]` with
`j = (i + n - 1) % n`). -/
def checkBoundary (px py : ℚ) (pts : List Vec2) : Bool :=
  (List.range pts.length).any (fun i =>
    onSegB px py (pts.getD ((i + pts.length - 1) % pts.length) (0, 0)) (pts.getD i (0, 0)))

/-- The even-odd ray cast inside `Polygon.isInside` (`polygon.js`), with the
source's `EPSILON` guard added to the divisor. -/
def rayCast (px py : ℚ) (pts : List Vec2) : Bool :=
  (List.range pts.length).foldl (fun inside i =>
    let c := pts.getD i (0, 0)
    let pr := pts.getD ((i + pts.length - 1) % pts.length) (0, 0)
    let intersect :=
      (decide (c.2 > py) != decide (pr.2 > py)) &&
        decide (px < (pr.1 - c.1) * (py - c.2) / (pr.2 - c.2 + EPSILON) + c.1)
    if intersect then !inside else inside) false

/-- `Polygon.isInside` from `polygon.js`: boundary points (outer or hole
boundary) count as inside; otherwise even-odd ray cast against the outer
ring, then exclusion of hole interiors. -/
def isInside (p : Polygon) (pt : Vec2) : Bool :=
  if checkBoundary pt.1 pt.2 p.points || p.holes.any (fun h => checkBoundary pt.1 pt.2 h) then
    true
  else if !rayCast pt.1 pt.2 p.points then false
  else !p.holes.any (fun h => rayCast pt.1 pt.2 h)

/-- The `orient` helper inside `Polygon.isSegmentInside` (`polygon.js`). -/
def orient (p q r : Vec2) : ℚ :=
  (q.1 - p.1) * (r.2 - p.2) - (q.2 - p.2) * (r.1 - p.1)

/-- The `onSeg` helper inside `Polygon.isSegmentInside` (`polygon.js`):
`q` is inside the `EPSILON`-padded bounding box of segment `p`–`r`. -/
def onSegBox (p q r : Vec2) : Bool :=
  decide (min p.1 r.1 - EPSILON ≤ q.1) && decide (q.1 ≤ max p.1 r.1 + EPSILON) &&
    decide (min p.2 r.2 - EPSILON ≤ q.2) && decide (q.2 ≤ max p.2 r.2 + EPSILON)

/-- The `intersectsStrict` helper inside `Polygon.isSegmentInside`
(`polygon.js`): proper crossing, or colinear overlap at a non-endpoint. -/
def intersectsStrict (a b c d : Vec2) : Bool :=
  let o1 := orient a b c
  let o2 := orient a b d
  let o3 := orient c d a
  let o4 := orient c d b
  if decide (o1 * o2 < -EPSILON) && decide (o3 * o4 < -EPSILON) then true
  else if decide (|o1| < EPSILON) && onSegBox a c b && !vec2.equal c a && !vec2.equal c b then true
  else if decide (|o2| < EPSILON) && onSegBox a d b && !vec2.equal d a && !vec2.equal d b then true
  else if decide (|o3| < EPSILON) && onSegBox c a d && !vec2.equal a c && !vec2.equal a d then true
  else if decide (|o4| < EPSILON) && onSegBox c b d && !vec2.equal b c && !vec2.equal b d then true
  else false

/-- The `checkEdges` helper inside `Polygon.isSegmentInside` (`polygon.js`):
no edge of the ring strictly intersects the segment `p0`–`p1`. -/
def checkEdges (p0 p1 : Vec2) (pts : List Vec2) : Bool :=
  (List.range pts.length).all (fun i =>
    !intersectsStrict p0 p1 (pts.getD ((i + pts.length - 1) % pts.length) (0, 0))
      (pts.getD i (0, 0)))

/-- `Polygon.isSegmentInside` from `polygon.js`: both endpoints inside, and
no outer or hole edge strictly intersects the segment. -/
def isSegmentInside (p : Polygon) (p0 p1 : Vec2) : Bool :=
  if !p.isInside p0 || !p.isInside p1 then false
  else checkEdges p0 p1 p.points && p.holes.all (fun h => checkEdges p0 p1 h)

end Polygon

/-!
The display-entity tree from `display.js`.  A `Display` owns an ordered
list of passenger displays; the list is represented by the mutually
inductive `DisplayList` so that all tree recursions are structural.
-/

mutual
/-- `Display` from `display.js`: one parallelogram (or text) primitive.
Constructor field order follows the source constructor's field
initialisation (`uuid` is always `undefined` and is omitted). -/
inductive Display : Type where
  | mk (type : String) (state : String) (colorCode : ℤ) (sides : Vec2 × Vec2)
       (depth : ℚ) (position : Vec2) (translation : Vec2) (isRoot : Bool)
       (passengers : DisplayList)
/-- The ordered passenger list of a `Display` (the source's plain array). -/
inductive DisplayList : Type where
  | nil
  | cons (head : Display) (tail : DisplayList)
end

namespace DisplayList

/-- Appends one display at the end of a passenger list (the source's
`this.passengers.push(display)`). -/
def push : DisplayList → Display → DisplayList
  | .nil, d => .cons d .nil
  | .cons h t, d => .cons h (t.push d)

end DisplayList

namespace Display

/-- Field accessor for `type`. -/
def type : Display → String
  | .mk t _ _ _ _ _ _ _ _ => t

/-- Field accessor for `state` (the block-state `Name`). -/
def state : Display → String
  | .mk _ s _ _ _ _ _ _ _ => s

/-- Field accessor for `colorCode`. -/
def colorCode : Display → ℤ
  | .mk _ _ c _ _ _ _ _ _ => c

/-- Field accessor for `sides`. -/
def sides : Display → Vec2 × Vec2
  | .mk _ _ _ sd _ _ _ _ _ => sd

/-- Field accessor for `depth`. -/
def depth : Display → ℚ
  | .mk _ _ _ _ dp _ _ _ _ => dp

/-- Field accessor for `position`. -/
def position : Display → Vec2
  | .mk _ _ _ _ _ pos _ _ _ => pos

/-- Field accessor for `translation`. -/
def translation : Display → Vec2
  | .mk _ _ _ _ _ _ tr _ _ => tr

/-- Field accessor for `passengers`. -/
def passengers : Display → DisplayList
  | .mk _ _ _ _ _ _ _ _ ps => ps

/-- `new Display(position, sides)` from `display.js`: block display with
block state `black_concrete`, color code `-16777216`, depth `0.0625`,
zero translation, no passengers. -/
def new (position : Vec2) (sides : Vec2 × Vec2) : Display :=
  .mk "block_display" "black_concrete" (-16777216) sides (1/16) position (0, 0) false .nil

/-- `Display.getAbsolutePosition` from `display.js`: `position + translation`. -/
def getAbsolutePosition (d : Display) : Vec2 := vec2.add d.position d.translation

/-- The mutation `addPassenger` performs on its argument (`display.js`):
`translation += position - self.position`, then `position := self.position`. -/
def asPassengerOf : Display → Display → Display
  | .mk t s c sd dp pos tr rt ps, self =>
      .mk t s c sd dp self.position (vec2.add tr (vec2.sub pos self.position)) rt ps

/-- `Display.addPassenger` from `display.js`: adjust the child's
translation/position relative to `self` and append it to `passengers`. -/
def addPassenger (self display : Display) : Display :=
  match self with
  | .mk t s c sd dp pos tr rt ps =>
      .mk t s c sd dp pos tr rt (ps.push (display.asPassengerOf (.mk t s c sd dp pos tr rt ps)))

/-- `Display.nestedDisplay` from `display.js`: the first display becomes the
base (its placement absorbed into its translation, position reset to the
origin), the rest are added as passengers in order.  The source destructures
`[base, ...rest]`; on an empty array it would crash, modelled as `none`. -/
def nestedDisplay : List Display → Option Display
  | [] => none
  | .mk t s c sd dp pos tr rt ps :: rest =>
      some (rest.foldl addPassenger (.mk t s c sd dp (0, 0) (vec2.add pos tr) rt ps))

/-- `Display.getVertices` from `display.js`: the 4 corners of the
parallelogram, wound `side0`-then-`side1` when `cross side0 side1 ≥ 0` and
`side1`-then-`side0` otherwise. -/
def getVertices (d : Display) : List Vec2 :=
  let absPos := d.getAbsolutePosition
  let s0 := d.sides.1
  let s1 := d.sides.2
  let cr := vec2.cross s0 s1
  if cr ≥ 0 then
    [absPos, vec2.add absPos s0, vec2.add (vec2.add absPos s0) s1, vec2.add absPos s1]
  else
    [absPos, vec2.add absPos s1, vec2.add (vec2.add absPos s1) s0, vec2.add absPos s0]

/-- `Display.getTransformation` from `display.js`: a 4×4 matrix as rows.
Text displays use the `×8`/`×4` scale and the `0.4`-of-`side1` offset;
block displays place the side vectors' x-components in row 1, the negated
y-components in row 2, `-depth` in row 3, and `translation` in the fourth
column of rows 1–2 (row 2 negated). -/
def getTransformation (d : Display) : List (List ℚ) :=
  if d.type = "text_display" then
    [[d.sides.2.1 * 8, d.sides.1.1 * 4, 0, d.translation.1 + 2/5 * d.sides.2.1],
     [-d.sides.2.2 * 8, -d.sides.1.2 * 4, 0, -(d.translation.2 + 2/5 * d.sides.2.2)],
     [0, 0, d.depth * 1, 0],
     [0, 0, 0, 1]]
  else
    [[d.sides.1.1, d.sides.2.1, 0, d.translation.1],
     [-d.sides.1.2, -d.sides.2.2, 0, -d.translation.2],
     [0, 0, -d.depth, 0],
     [0, 0, 0, 1]]

end Display

mutual
/-- `Display.scale` from `display.js` (current version): multiply both side
vectors and the translation by `scaleFactor`, recurse into passengers. -/
def Display.scale (scaleFactor : ℚ) : Display → Display
  | .mk t s c (s0, s1) dp pos tr rt ps =>
      .mk t s c (vec2.scale s0 scaleFactor, vec2.scale s1 scaleFactor) dp pos
        (vec2.scale tr scaleFactor) rt (DisplayList.scaleAll scaleFactor ps)
/-- `scale` applied to each member of a passenger list. -/
def DisplayList.scaleAll (scaleFactor : ℚ) : DisplayList → DisplayList
  | .nil => .nil
  | .cons d tl => .cons (d.scale scaleFactor) (tl.scaleAll scaleFactor)
end

mutual
/-- `Display.scale` from the older `display.js` variant: the side vectors
are multiplied by `scaleFactor` but the translation is multiplied by the
constant `0.5`, regardless of `scaleFactor`. -/
def Display.scaleLegacy (scaleFactor : ℚ) : Display → Display
  | .mk t s c (s0, s1) dp pos tr rt ps =>
      .mk t s c (vec2.scale s0 scaleFactor, vec2.scale s1 scaleFactor) dp pos
        (vec2.scale tr (1/2)) rt (DisplayList.scaleLegacyAll scaleFactor ps)
/-- Legacy `scale` applied to each member of a passenger list. -/
def DisplayList.scaleLegacyAll (scaleFactor : ℚ) : DisplayList → DisplayList
  | .nil => .nil
  | .cons d tl => .cons (d.scaleLegacy scaleFactor) (tl.scaleLegacyAll scaleFactor)
end

mutual
/-- `Display.setType` from `display.js`: values other than
`"block_display"` / `"text_display"` cause an early return (no field is
touched, nothing is propagated); valid values are set on the node and
propagated to every passenger. -/
def Display.setType (ty : String) : Display → Display
  | .mk t s c sd dp pos tr rt ps =>
      if ty = "block_display" ∨ ty = "text_display" then
        .mk ty s c sd dp pos tr rt (DisplayList.setTypeAll ty ps)
      else .mk t s c sd dp pos tr rt ps
/-- `setType` applied to each member of a passenger list. -/
def DisplayList.setTypeAll (ty : String) : DisplayList → DisplayList
  | .nil => .nil
  | .cons d tl => .cons (d.setType ty) (tl.setTypeAll ty)
end

mutual
/-- `Display.getTotalDisplayCount` from `display.js`: 1 plus the recursive
count over all passengers. -/
def Display.getTotalDisplayCount : Display → ℕ
  | .mk _ _ _ _ _ _ _ _ ps => 1 + DisplayList.totalCountAll ps
/-- Sum of `getTotalDisplayCount` over a passenger list. -/
def DisplayList.totalCountAll : DisplayList → ℕ
  | .nil => 0
  | .cons d tl => d.getTotalDisplayCount + tl.totalCountAll
end

mutual
/-- Verification helper (not in the source): the preorder list of all nodes
of a display tree, used to state per-node properties. -/
def Display.nodes : Display → List Display
  | .mk t s c sd dp pos tr rt ps => .mk t s c sd dp pos tr rt ps :: DisplayList.nodesAll ps
/-- Verification helper: all nodes of all trees in a passenger list. -/
def DisplayList.nodesAll : DisplayList → List Display
  | .nil => []
  | .cons d tl => d.nodes ++ tl.nodesAll
end

/-- Verification helper: the preorder list of every node's
`getAbsolutePosition` (= `position + translation`). -/
def Display.absList (d : Display) : List Vec2 := d.nodes.map Display.getAbsolutePosition

/-- `triangleToDisplays` from `display.js`: one display per triangle vertex
(the source maps over `points` with the element and its index), with
half-edge sides to the two neighbouring vertices (indices mod 3). -/
def triangleToDisplays (points : List Vec2) : List Display :=
  (List.range points.length).map (fun i =>
    let p := points.getD i (0, 0)
    let q := points.getD ((i + 1) % 3) (0, 0)
    let r := points.getD ((i + 2) % 3) (0, 0)
    Display.new p (vec2.scale (vec2.sub q p) (1/2), vec2.scale (vec2.sub r p) (1/2)))

/-!
The convex-polygon to display-tree converter (`convexToDisplay`) and the
Hertel–Mehlhorn-style convex decomposition (`convexDecomposition`) from
`geometry.js`.  The external tessellator (`triangulate`, libtess) and the
float-valued `getMaxInteriorAngleIndex` (it compares `atan2`/`acos` angles
of IEEE doubles) are kept abstract: both are taken as parameters.
-/

/-- Whether an `Except` result is an error (a thrown exception in the source). -/
def isErr : Except String Display → Bool
  | .error _ => true
  | .ok _ => false

/-- `convexToDisplay` from `geometry.js` (fast fixed-apex version).
`maxIdxFn` abstracts `polygon.getMaxInteriorAngleIndex()`, whose
floating-point `atan2` angle comparison has no exact rational counterpart;
it is only consulted in the general (non-triangle, non-parallelogram)
branch.  Thrown `Error`s are modelled as `Except.error`; `nestedDisplay` of
an empty array (a crash in the source) also surfaces as an error. -/
def convexToDisplay (maxIdxFn : Polygon → ℕ) (polygon : Polygon)
    (boundaryPolygon : Polygon) : Except String Display :=
  if polygon.isTriangle then
    let p0 := polygon.points.getD 0 (0, 0)
    let p1 := polygon.points.getD 1 (0, 0)
    let p2 := polygon.points.getD 2 (0, 0)
    let pA := vec2.add p0 (vec2.sub p1 p2)
    let pB := vec2.add p1 (vec2.sub p2 p0)
    let pC := vec2.add p2 (vec2.sub p0 p1)
    if boundaryPolygon.isSegmentInside pA p0 && boundaryPolygon.isSegmentInside pA p1 then
      .ok (Display.new p0 (vec2.sub p2 p0, vec2.sub pA p0))
    else if boundaryPolygon.isSegmentInside pB p1 && boundaryPolygon.isSegmentInside pB p2 then
      .ok (Display.new p1 (vec2.sub p0 p1, vec2.sub pB p1))
    else if boundaryPolygon.isSegmentInside pC p2 && boundaryPolygon.isSegmentInside pC p0 then
      .ok (Display.new p2 (vec2.sub p1 p2, vec2.sub pC p2))
    else
      match Display.nestedDisplay (triangleToDisplays polygon.points) with
      | some d => .ok d
      | none => .error "nestedDisplay on empty list"
  else if polygon.isParallelogram then
    let p0 := polygon.points.getD 0 (0, 0)
    let p1 := polygon.points.getD 1 (0, 0)
    let p2 := polygon.points.getD 2 (0, 0)
    .ok (Display.new p1 (vec2.sub p0 p1, vec2.sub p2 p1))
  else if !polygon.isConvex then
    .error "Convex to Displays ERROR: input polygon is not convex."
  else if polygon.points.length < 3 then
    .error "Convex to Displays ERROR: The number of input polygon points is less than 3."
  else
    let length := polygon.points.length
    let maxIdx := maxIdxFn polygon
    let p0 := polygon.points.getD maxIdx (0, 0)
    let resultDisplays := (List.range length).foldl (fun acc i =>
      if i = maxIdx ∨ (i + 1) % length = maxIdx then acc
      else
        let p1 := polygon.points.getD i (0, 0)
        let p2 := polygon.points.getD ((i + 1) % length) (0, 0)
        let pA := vec2.add p0 (vec2.sub p1 p2)
        let pC := vec2.add p2 (vec2.sub p0 p1)
        if boundaryPolygon.isSegmentInside pA p0 && boundaryPolygon.isSegmentInside pA p1 then
          acc ++ [Display.new p0 (vec2.sub p2 p0, vec2.sub pA p0)]
        else if boundaryPolygon.isSegmentInside pC p2 && boundaryPolygon.isSegmentInside pC p0 then
          acc ++ [Display.new p2 (vec2.sub p1 p2, vec2.sub pC p2)]
        else acc ++ triangleToDisplays [p0, p1, p2]) []
    match Display.nestedDisplay resultDisplays with
    | some d => .ok d
    | none => .error "nestedDisplay on empty list"

/-- The shared-vertex collection inside `convexDecomposition`
(`geometry.js`): for each point `p1` of `polyA`, one copy of `p1` is pushed
for every point of `polyB` that is `vec2.equal` to it. -/
def sharedPoints (polyA polyB : Polygon) : List Vec2 :=
  polyA.points.flatMap (fun p1 =>
    (polyB.points.filter (fun p2 => vec2.equal p1 p2)).map (fun _ => p1))

/-- `mergePolygons` from `geometry.js`: splice the two vertex rings along
the shared edge `s0`–`s1` and drop that edge.  `List.findIdx` returns the
list length where the source's `findIndex` returns `-1`; in the
decomposition loop the shared points always occur in both rings, so the
indices are in range there. -/
def mergePolygons (polyA polyB : Polygon) (s0 s1 : Vec2) : Polygon :=
  let lenPolyA := polyA.points.length
  let idxPolyAs0 := polyA.points.findIdx (fun p => vec2.equal p s0)
  let idxPolyAs1 := polyA.points.findIdx (fun p => vec2.equal p s1)
  let idxPolyBs0 := polyB.points.findIdx (fun p => vec2.equal p s0)
  let idxPolyBs1 := polyB.points.findIdx (fun p => vec2.equal p s1)
  let pair :=
    if (idxPolyAs0 + 1) % lenPolyA = idxPolyAs1 then (idxPolyAs1, idxPolyBs0)
    else (idxPolyAs0, idxPolyBs1)
  let merged :=
    polyA.points.drop (pair.1 + 1) ++ polyA.points.take pair.1 ++
      polyB.points.drop (pair.2 + 1) ++ polyB.points.take pair.2
  { points := merged, holes := [], color := polyA.color }

/-- One merge attempt of the scan in `convexDecomposition` (`geometry.js`):
the pair is a candidate only if it has exactly two shared vertices and the
spliced ring is convex; the pushed piece is the `simplify()` of that ring. -/
def canMergeCandidate (polyA polyB : Polygon) : Option Polygon :=
  let shared := sharedPoints polyA polyB
  if shared.length = 2 then
    let cand := mergePolygons polyA polyB (shared.getD 0 (0, 0)) (shared.getD 1 (0, 0))
    if cand.isConvex then some cand else none
  else none

/-- Scans `rest` for the first polygon mergeable with `a` (the inner `j`
loop of the scan in `convexDecomposition`); returns the simplified merged
piece and the remaining list with the partner removed. -/
def tryMergeWith (a : Polygon) : List Polygon → Option (Polygon × List Polygon)
  | [] => none
  | b :: bs =>
    match canMergeCandidate a b with
    | some cand => some (cand.simplify, bs)
    | none =>
      match tryMergeWith a bs with
      | some (m, l) => some (m, b :: l)
      | none => none

/-- One full row-major pairwise scan of the piece list (the labelled
`outer:` loop in `convexDecomposition`): on the first successful pair the
two pieces are removed and the merged piece is pushed at the end. -/
def mergeScan : List Polygon → Option (List Polygon)
  | [] => none
  | a :: rest =>
    match tryMergeWith a rest with
    | some (m, rest') => some (rest' ++ [m])
    | none => (mergeScan rest).map (fun l => a :: l)

/-- The `while (true)` merge loop of `convexDecomposition`, with explicit
fuel.  Every successful scan removes two pieces and pushes one, so the list
length drops by exactly one per iteration; with fuel equal to the initial
length the fuel can therefore never run out before a scan fails, and this
function is extensionally the source's unbounded loop. -/
def mergeLoopFuel : ℕ → List Polygon → List Polygon
  | 0, ps => ps
  | fuel + 1, ps =>
    match mergeScan ps with
    | none => ps
    | some ps' => mergeLoopFuel fuel ps'

/-- The merge phase of `convexDecomposition` (`geometry.js`). -/
def mergeLoop (ps : List Polygon) : List Polygon := mergeLoopFuel ps.length ps

/-- `splitIntoEdges` from `geometry.js` (with the default `edges = 3`, the
only call): chunks of 6 coordinates. -/
def splitIntoEdges (l : List ℚ) : List (List ℚ) :=
  if l.isEmpty then [] else l.take 6 :: splitIntoEdges (l.drop 6)
termination_by l.length
decreasing_by
  cases l with
  | nil => simp_all
  | cons a t => simp [List.length_drop]; omega

/-- A raw 6-coordinate chunk as a triangle `Polygon`.  In the source a
short trailing chunk yields `undefined` coordinates (`NaN` after
arithmetic), and such a polygon always fails the `isConvex` filter in
`toTriangles`; dropping short chunks here is extensionally the same. -/
def mkTriangle : List ℚ → Option Polygon
  | [x0, y0, x1, y1, x2, y2] => some { points := [(x0, y0), (x1, y1), (x2, y2)], holes := [] }
  | _ => none

/-- `toTriangles` from `geometry.js`: flatten each polygon's rings, hand
them to the tessellator (`tess` abstracts the external libtess call), chunk
the returned coordinates into triangles and keep the convex ones. -/
def toTriangles (tess : List (List ℚ) → List ℚ) (polygons : List Polygon) : List Polygon :=
  (polygons.map (fun poly =>
    splitIntoEdges (tess ((poly.points :: poly.holes).map
      (fun ring => ring.flatMap (fun p => [p.1, p.2])))))).flatMap
    (fun triangles => (triangles.filterMap mkTriangle).filter Polygon.isConvex)

/-- `convexDecomposition` from `geometry.js` (Hertel–Mehlhorn style): a
triangle or convex input is returned unchanged (cloned) as the sole piece;
otherwise the input is triangulated and adjacent pieces are merged
greedily while some merge keeps the ring convex. -/
def convexDecomposition (tess : List (List ℚ) → List ℚ) (polygon : Polygon) : List Polygon :=
  let input := polygon.clone
  if input.isTriangle || input.isConvex then [input]
  else mergeLoop (toTriangles tess [input])

/-- Verification helper: what the merge loop guarantees about a piece — it
is convex, or it is the `simplify()` of a ring that passed `isConvex`
before colinear-vertex removal. -/
def GoodPiece (p : Polygon) : Prop :=
  p.isConvex = true ∨ ∃ q : Polygon, q.isConvex = true ∧ p = q.simplify

/-- Verification helper: twice the signed shoelace area of a closed point
list, `Σ (xᵢ·yᵢ₊₁ - xᵢ₊₁·yᵢ)` cyclically. -/
def shoelaceSum (pts : List Vec2) : ℚ :=
  (List.range pts.length).foldl (fun acc i =>
    acc + vec2.cross (pts.getD i (0, 0)) (pts.getD ((i + 1) % pts.length) (0, 0))) 0
/-!
Theorems.  Each claim of the specification is settled by one theorem (plus
a witness instance when the theorem has hypotheses, and a concrete
counterexample where the claim as stated fails on the code).
-/

/-- C10: for every Display tree and every string other than
`"block_display"` and `"text_display"`, `setType` is a no-op — the node and
all of its descendants (the whole value) are unchanged, and in particular
the invalid value is not propagated to any passenger. -/
theorem setType_invalid_is_noop (d : Display) (ty : String)
    (h1 : ty ≠ "block_display") (h2 : ty ≠ "text_display") :
    d.setType ty = d := by
  cases d with
  | mk t s c sd dp pos tr rt ps => simp [Display.setType, h1, h2]

/-- Witness for C10 at a concrete display and the concrete invalid type
`"item_display"`. -/
theorem setType_invalid_is_noop_witness :
    (Display.new (0, 0) ((1, 0), (0, 1))).setType "item_display"
      = Display.new (0, 0) ((1, 0), (0, 1)) :=
  setType_invalid_is_noop _ _ (by decide) (by decide)

/-- Helper: the shoelace sum of an explicit 4-point list. -/
theorem shoelaceSum_four (a b c d : Vec2) :
    shoelaceSum [a, b, c, d] =
      vec2.cross a b + vec2.cross b c + vec2.cross c d + vec2.cross d a := by
  show (List.range 4).foldl _ 0 = _
  rw [show List.range 4 = [0, 1, 2, 3] from rfl]
  simp only [List.foldl_cons, List.foldl_nil]
  norm_num [List.getD]

/-- C7: `getVertices` returns 4 corner points, and their signed shoelace
area (twice the area, as `shoelaceSum`) equals `2 * |cross side0 side1|`,
hence is nonnegative — one single consistent sign — for every display,
whatever the relative orientation or magnitude of the two side vectors; the
winding is chosen by the sign of `cross side0 side1`. -/
theorem getVertices_consistent_winding (d : Display) :
    d.getVertices.length = 4 ∧
      shoelaceSum d.getVertices = 2 * |vec2.cross d.sides.1 d.sides.2| ∧
      0 ≤ shoelaceSum d.getVertices := by
  have habs : shoelaceSum d.getVertices = 2 * |vec2.cross d.sides.1 d.sides.2| := by
    unfold Display.getVertices
    rcases le_or_lt 0 (vec2.cross d.sides.1 d.sides.2) with h | h
    · rw [if_pos (by simpa using h), abs_of_nonneg h, shoelaceSum_four]
      simp only [vec2.cross, vec2.add]
      ring
    · rw [if_neg (by simpa using not_le.mpr h), abs_of_neg h, shoelaceSum_four]
      simp only [vec2.cross, vec2.add]
      ring
  refine ⟨?_, habs, ?_⟩
  · unfold Display.getVertices
    rcases le_or_lt 0 (vec2.cross d.sides.1 d.sides.2) with h | h
    · rw [if_pos (by simpa using h)]
      rfl
    · rw [if_neg (by simpa using not_le.mpr h)]
      rfl
  · rw [habs]
    positivity

/-- C9 counterexample: for the block display with `side0 = (1,2)`,
`side1 = (3,4)`, `translation = (5,6)`, the transformation's first row is
`[1, 3, 0, 5]` — the x-components of both side vectors — and not
`side0 = [1, 2, ...]` as the claim's row reading asserts (and row 2 holds
the negated y-components `[-2, -4, ...]`, not `-side1 = [-3, -4, ...]`). -/
theorem getTransformation_row_reading_counterexample :
    (Display.mk "block_display" "black_concrete" (-16777216) ((1, 2), (3, 4)) (1/16)
        (0, 0) (5, 6) false .nil).getTransformation
      = [[1, 3, 0, 5], [-2, -4, 0, -6], [0, 0, -(1/16 : ℚ), 0], [0, 0, 0, 1]] ∧
    (Display.mk "block_display" "black_concrete" (-16777216) ((1, 2), (3, 4)) (1/16)
        (0, 0) (5, 6) false .nil).getTransformation
      ≠ [[1, 2, 0, 5], [-3, -4, 0, -6], [0, 0, -(1/16 : ℚ), 0], [0, 0, 0, 1]] := by
  constructor
  · simp only [Display.getTransformation, Display.type, Display.sides, Display.translation,
      Display.depth]
    rw [if_neg (by decide)]
  · simp only [Display.getTransformation, Display.type, Display.sides, Display.translation,
      Display.depth]
    rw [if_neg (by decide)]
    simp only [ne_eq, List.cons.injEq]
    norm_num

/-- C9 (amended): for every block-type display, the 4×4 transformation's
linear part carries the side vectors as columns with their y-components
negated — row 1 is `(side0.x, side1.x, 0)`, row 2 is
`(-side0.y, -side1.y, 0)` — row 3 is scaled by `-depth`, and `translation`
is the 4th-column offset on rows 1–2 with the row-2 offset negated. -/
theorem getTransformation_block_matrix (d : Display) (h : d.type = "block_display") :
    d.getTransformation =
      [[d.sides.1.1, d.sides.2.1, 0, d.translation.1],
       [-d.sides.1.2, -d.sides.2.2, 0, -d.translation.2],
       [0, 0, -d.depth, 0],
       [0, 0, 0, 1]] := by
  unfold Display.getTransformation
  rw [if_neg (by rw [h]; decide)]

/-- Witness for C9's amended theorem at a concrete block display. -/
theorem getTransformation_block_matrix_witness :
    (Display.mk "block_display" "stone" 0 ((7, 8), (9, 10)) (1/16) (0, 0) (11, 12) false
        .nil).getTransformation
      = [[7, 9, 0, 11], [-8, -10, 0, -12], [0, 0, -(1/16 : ℚ), 0], [0, 0, 0, 1]] := by
  rw [getTransformation_block_matrix
    (Display.mk "block_display" "stone" 0 ((7, 8), (9, 10)) (1/16) (0, 0) (11, 12) false .nil)
    (by simp [Display.type])]
  simp [Display.sides, Display.translation, Display.depth]

/-- C8: `isConvex` returns true iff the outer ring is counterclockwise
under the function's sign convention, the polygon has no holes, and no
vertex is reflex (negative cross product of consecutive edge vectors); in
particular every clockwise-wound polygon is reported non-convex — shown
concretely for the clockwise unit square, whose reversed (counterclockwise)
ring *is* accepted, so the shape itself is geometrically convex. -/
theorem isConvex_characterization :
    (∀ p : Polygon,
      p.isConvex = true ↔
        Polygon.isCounterClockwise p.points = true ∧ p.holes = [] ∧
          ∀ i < p.points.length,
            Polygon.isReflex
              (p.points.getD ((i + p.points.length - 1) % p.points.length) (0, 0))
              (p.points.getD i (0, 0))
              (p.points.getD ((i + 1) % p.points.length) (0, 0)) = false)
    ∧ (∀ p : Polygon, Polygon.isCounterClockwise p.points = false → p.isConvex = false)
    ∧ Polygon.isConvex ⟨[(0, 0), (0, 1), (1, 1), (1, 0)], [], "#000"⟩ = false
    ∧ Polygon.isConvex ⟨[(1, 0), (1, 1), (0, 1), (0, 0)], [], "#000"⟩ = true := by
  refine ⟨?_, ?_, ?_, ?_⟩
  · intro p
    simp only [Polygon.isConvex, Bool.and_eq_true, List.all_eq_true, List.mem_range,
      Bool.not_eq_true', Polygon.hasHole, gt_iff_lt, decide_eq_false_iff_not, not_lt,
      Nat.le_zero, List.length_eq_zero, and_assoc]
  · intro p h
    simp [Polygon.isConvex, h]
  · norm_num [Polygon.isConvex, Polygon.isCounterClockwise, List.range_succ, List.getD]
  · norm_num [Polygon.isConvex, Polygon.isCounterClockwise, Polygon.hasHole, Polygon.isReflex,
      vec2.cross, vec2.sub, List.range_succ, List.getD]

/-- Witness for C8: the characterization applied to the counterclockwise
unit square. -/
theorem isConvex_characterization_witness :
    Polygon.isConvex ⟨[(0, 0), (1, 0), (1, 1), (0, 1)], [], "#000"⟩ = true := by
  refine (isConvex_characterization.1 _).mpr ⟨?_, rfl, ?_⟩
  · norm_num [Polygon.isCounterClockwise, List.range_succ, List.getD]
  · intro i hi
    simp only [List.length_cons, List.length_nil] at hi
    interval_cases i <;>
      norm_num [Polygon.isReflex, vec2.cross, vec2.sub, List.getD]

/-- Helper: appending a display to a passenger list appends its nodes. -/
theorem DisplayList.nodesAll_push : ∀ (l : DisplayList) (d : Display),
    (l.push d).nodesAll = l.nodesAll ++ d.nodes
  | .nil, d => by simp [DisplayList.push, DisplayList.nodesAll]
  | .cons h t, d => by
      simp [DisplayList.push, DisplayList.nodesAll, DisplayList.nodesAll_push t d]

/-- Helper: `getAbsolutePosition` only reads `position` and `translation`. -/
theorem Display.getAbsolutePosition_mk (t s : String) (c : ℤ) (sd : Vec2 × Vec2) (dp : ℚ)
    (pos tr : Vec2) (rt : Bool) (ps : DisplayList) :
    (Display.mk t s c sd dp pos tr rt ps).getAbsolutePosition = (pos.1 + tr.1, pos.2 + tr.2) :=
  rfl

/-- Helper: the passenger adjustment performed by `addPassenger` keeps every
node's absolute position (the adjusted top node trades position against
translation; deeper nodes are untouched). -/
theorem Display.absList_asPassengerOf (d self : Display) :
    (d.asPassengerOf self).absList = d.absList := by
  cases d with
  | mk t s c sd dp pos tr rt ps =>
    cases self with
    | mk t' s' c' sd' dp' pos' tr' rt' ps' =>
      simp only [Display.asPassengerOf, Display.absList, Display.nodes, List.map_cons,
        Display.getAbsolutePosition_mk, Display.position, vec2.add, vec2.sub,
        List.cons.injEq, Prod.mk.injEq]
      exact ⟨⟨by ring, by ring⟩, trivial⟩

/-- Helper: `addPassenger` appends the child's absolute-position list to the
parent's. -/
theorem Display.absList_addPassenger (self d : Display) :
    (self.addPassenger d).absList = self.absList ++ d.absList := by
  cases self with
  | mk t s c sd dp pos tr rt ps =>
    have h := Display.absList_asPassengerOf d (.mk t s c sd dp pos tr rt ps)
    simp only [Display.absList] at h
    simp only [Display.addPassenger, Display.absList, Display.nodes, List.map_cons,
      DisplayList.nodesAll_push, List.map_append, h, Display.getAbsolutePosition_mk,
      List.cons_append]

/-- Helper: folding `addPassenger` over a list concatenates the
absolute-position lists. -/
theorem Display.absList_foldl_addPassenger (rest : List Display) : ∀ b : Display,
    (rest.foldl Display.addPassenger b).absList
      = b.absList ++ (rest.map Display.absList).flatten := by
  induction rest with
  | nil => intro b; simp
  | cons r rs ih =>
      intro b
      simp [List.foldl_cons, ih, Display.absList_addPassenger, List.append_assoc]

/-- C1: building a tree with `nestedDisplay` preserves every node's
`getAbsolutePosition` (= position + translation): the preorder list of
absolute positions of the resulting tree is exactly the concatenation of
the input displays' preorder absolute-position lists; and in particular the
adjustment `addPassenger` applies to a child preserves the child's
position + translation sum. -/
theorem nestedDisplay_preserves_absolute_positions :
    (∀ (base : Display) (rest : List Display),
      (Display.nestedDisplay (base :: rest)).map Display.absList
        = some (base.absList ++ (rest.map Display.absList).flatten))
    ∧ ∀ (self d : Display),
        (d.asPassengerOf self).getAbsolutePosition = d.getAbsolutePosition := by
  constructor
  · intro base rest
    cases base with
    | mk t s c sd dp pos tr rt ps =>
      rw [Display.nestedDisplay, Option.map_some', Display.absList_foldl_addPassenger]
      congr 2
      simp only [Display.absList, Display.nodes, List.map_cons,
        Display.getAbsolutePosition_mk, List.cons.injEq, Prod.mk.injEq, vec2.add]
      exact ⟨⟨by ring, by ring⟩, trivial⟩
  · intro self d
    cases d with
    | mk t s c sd dp pos tr rt ps =>
      cases self with
      | mk t' s' c' sd' dp' pos' tr' rt' ps' =>
        simp only [Display.asPassengerOf, Display.getAbsolutePosition_mk, Display.position,
          vec2.add, vec2.sub, Prod.mk.injEq]
        exact ⟨by ring, by ring⟩

mutual
/-- Helper: per-node field lists after `scale` — sides and translation of
every node are multiplied by the factor, positions are unchanged. -/
theorem Display.scale_nodes_fields : ∀ (k : ℚ) (d : Display),
    (d.scale k).nodes.map Display.sides
        = d.nodes.map (fun x => (vec2.scale x.sides.1 k, vec2.scale x.sides.2 k))
    ∧ (d.scale k).nodes.map Display.translation
        = d.nodes.map (fun x => vec2.scale x.translation k)
    ∧ (d.scale k).nodes.map Display.position = d.nodes.map Display.position
  | k, .mk t s c (s0, s1) dp pos tr rt ps => by
      obtain ⟨h1, h2, h3⟩ := DisplayList.scaleAll_nodes_fields k ps
      simp [Display.scale, Display.nodes, Display.sides, Display.translation,
        Display.position, h1, h2, h3]
/-- Helper: the passenger-list side of `Display.scale_nodes_fields`. -/
theorem DisplayList.scaleAll_nodes_fields : ∀ (k : ℚ) (l : DisplayList),
    (DisplayList.scaleAll k l).nodesAll.map Display.sides
        = l.nodesAll.map (fun x => (vec2.scale x.sides.1 k, vec2.scale x.sides.2 k))
    ∧ (DisplayList.scaleAll k l).nodesAll.map Display.translation
        = l.nodesAll.map (fun x => vec2.scale x.translation k)
    ∧ (DisplayList.scaleAll k l).nodesAll.map Display.position
        = l.nodesAll.map Display.position
  | k, .nil => by simp [DisplayList.scaleAll, DisplayList.nodesAll]
  | k, .cons d tl => by
      obtain ⟨h1, h2, h3⟩ := Display.scale_nodes_fields k d
      obtain ⟨g1, g2, g3⟩ := DisplayList.scaleAll_nodes_fields k tl
      simp [DisplayList.scaleAll, DisplayList.nodesAll, h1, h2, h3, g1, g2, g3]
end

mutual
/-- Helper: composing two scales equals one scale by the product. -/
theorem Display.scale_scale : ∀ (k1 k2 : ℚ) (d : Display),
    (d.scale k1).scale k2 = d.scale (k1 * k2)
  | k1, k2, .mk t s c (s0, s1) dp pos tr rt ps => by
      simp [Display.scale, DisplayList.scaleAll_scaleAll k1 k2 ps, vec2.scale, mul_assoc]
/-- Helper: the passenger-list side of `Display.scale_scale`. -/
theorem DisplayList.scaleAll_scaleAll : ∀ (k1 k2 : ℚ) (l : DisplayList),
    DisplayList.scaleAll k2 (DisplayList.scaleAll k1 l) = DisplayList.scaleAll (k1 * k2) l
  | k1, k2, .nil => by simp [DisplayList.scaleAll]
  | k1, k2, .cons d tl => by
      simp [DisplayList.scaleAll, Display.scale_scale k1 k2 d,
        DisplayList.scaleAll_scaleAll k1 k2 tl]
end

/-- C4: the current `Display.scale k` multiplies every node's side vectors
and translation by exactly `k` and leaves every position unchanged, and
`scale k1` then `scale k2` equals one `scale (k1*k2)`; but the older
`display.js` variant of `scale` (here `scaleLegacy`) multiplies the
translation by the constant `0.5` instead of the factor: at factor `2` on a
root with translation `(3,4)` it produces translation `(3/2, 2)`, not the
`(6, 8)` the claim requires. -/
theorem scale_linearity_and_legacy_translation_bug :
    (∀ (k : ℚ) (d : Display),
      (d.scale k).nodes.map Display.sides
          = d.nodes.map (fun x => (vec2.scale x.sides.1 k, vec2.scale x.sides.2 k))
      ∧ (d.scale k).nodes.map Display.translation
          = d.nodes.map (fun x => vec2.scale x.translation k)
      ∧ (d.scale k).nodes.map Display.position = d.nodes.map Display.position)
    ∧ (∀ (k1 k2 : ℚ) (d : Display), (d.scale k1).scale k2 = d.scale (k1 * k2))
    ∧ ((Display.mk "block_display" "stone" 0 ((1, 0), (0, 1)) (1/16) (0, 0) (3, 4) false
          .nil).scaleLegacy 2).translation = (3/2, 2)
    ∧ vec2.scale (3, 4) 2 = ((6 : ℚ), (8 : ℚ)) := by
  refine ⟨fun k d => Display.scale_nodes_fields k d,
    fun k1 k2 d => Display.scale_scale k1 k2 d, ?_, ?_⟩
  · norm_num [Display.scaleLegacy, Display.translation, vec2.scale]
  · norm_num [vec2.scale]

/-- C6: a 4-point, hole-free polygon that passes `isParallelogram` converts
to exactly one display — anchored at the second vertex `p1` with sides
`p0 - p1` and `p2 - p1`, total display count 1 — for *every* boundary
polygon (no boundary test is consulted). -/
theorem parallelogram_single_display (maxIdxFn : Polygon → ℕ) (poly boundary : Polygon)
    (p0 p1 p2 p3 : Vec2) (hpts : poly.points = [p0, p1, p2, p3])
    (hpar : poly.isParallelogram = true) :
    convexToDisplay maxIdxFn poly boundary
        = .ok (Display.new p1 (vec2.sub p0 p1, vec2.sub p2 p1))
    ∧ (Display.new p1 (vec2.sub p0 p1, vec2.sub p2 p1)).getTotalDisplayCount = 1 := by
  have htri : poly.isTriangle = false := by
    simp [Polygon.isTriangle, hpts]
  constructor
  · rw [convexToDisplay, htri, hpar]
    norm_num [hpts, List.getD]
  · rfl

/-- Witness for C6: the unit square (spec scenario 1), converted against an
unrelated empty boundary polygon, yields the single display anchored at
`(1,0)` with sides `(-1,0)` and `(0,1)`. -/
theorem parallelogram_single_display_witness :
    convexToDisplay (fun _ => 0) ⟨[(0, 0), (1, 0), (1, 1), (0, 1)], [], "#000"⟩
        ⟨[], [], "#000"⟩
      = .ok (Display.new (1, 0) ((-1, 0), (0, 1))) := by
  have h := parallelogram_single_display (fun _ => 0)
    ⟨[(0, 0), (1, 0), (1, 1), (0, 1)], [], "#000"⟩ ⟨[], [], "#000"⟩
    (0, 0) (1, 0) (1, 1) (0, 1) rfl
    (by norm_num [Polygon.isParallelogram, Polygon.hasHole, vec2.isParallel, vec2.cross,
      vec2.sub, vec2.normSq, vec2.sqrtClose, EPSILON, List.getD])
  rw [h.1]
  norm_num [vec2.sub]

/-- Helper: `triangleToDisplays` on an explicit 3-point list. -/
theorem triangleToDisplays_three (a b c : Vec2) :
    triangleToDisplays [a, b, c] =
      [Display.new a (vec2.scale (vec2.sub b a) (1/2), vec2.scale (vec2.sub c a) (1/2)),
       Display.new b (vec2.scale (vec2.sub c b) (1/2), vec2.scale (vec2.sub a b) (1/2)),
       Display.new c (vec2.scale (vec2.sub a c) (1/2), vec2.scale (vec2.sub b c) (1/2))] := by
  show (List.range 3).map _ = _
  rw [show List.range 3 = [0, 1, 2] from rfl]
  norm_num [List.getD]

/-- Helper: the 3-wedge fallback tree for a triangle has display count 3. -/
theorem nestedDisplay_triangle_fallback (a b c : Vec2) :
    ∃ dFB : Display,
      Display.nestedDisplay (triangleToDisplays [a, b, c]) = some dFB
        ∧ dFB.getTotalDisplayCount = 3 := by
  refine ⟨_, by rw [triangleToDisplays_three]; rfl, ?_⟩
  rfl

/-- C5: for a triangle polygon `[p0, p1, p2]` (no holes) the converter
tests the completion candidates in the fixed order `pA = p0 + (p1 - p2)`,
then `pB = p1 + (p2 - p0)`, then `pC = p2 + (p0 - p1)`, each requiring both
new edges to pass `isSegmentInside` on the boundary; the first passing
candidate yields exactly one display (count 1), and if none passes the
result is the 3-wedge fallback nested into one tree with
`getTotalDisplayCount` equal to 3. -/
theorem triangle_candidate_priority (maxIdxFn : Polygon → ℕ) (poly boundary : Polygon)
    (p0 p1 p2 : Vec2) (hpts : poly.points = [p0, p1, p2]) (hh : poly.holes = []) :
    ((boundary.isSegmentInside (vec2.add p0 (vec2.sub p1 p2)) p0 &&
        boundary.isSegmentInside (vec2.add p0 (vec2.sub p1 p2)) p1) = true →
      convexToDisplay maxIdxFn poly boundary
          = .ok (Display.new p0 (vec2.sub p2 p0, vec2.sub (vec2.add p0 (vec2.sub p1 p2)) p0))
        ∧ (Display.new p0 (vec2.sub p2 p0,
            vec2.sub (vec2.add p0 (vec2.sub p1 p2)) p0)).getTotalDisplayCount = 1)
    ∧ ((boundary.isSegmentInside (vec2.add p0 (vec2.sub p1 p2)) p0 &&
          boundary.isSegmentInside (vec2.add p0 (vec2.sub p1 p2)) p1) = false →
        (boundary.isSegmentInside (vec2.add p1 (vec2.sub p2 p0)) p1 &&
          boundary.isSegmentInside (vec2.add p1 (vec2.sub p2 p0)) p2) = true →
        convexToDisplay maxIdxFn poly boundary
            = .ok (Display.new p1 (vec2.sub p0 p1, vec2.sub (vec2.add p1 (vec2.sub p2 p0)) p1))
          ∧ (Display.new p1 (vec2.sub p0 p1,
              vec2.sub (vec2.add p1 (vec2.sub p2 p0)) p1)).getTotalDisplayCount = 1)
    ∧ ((boundary.isSegmentInside (vec2.add p0 (vec2.sub p1 p2)) p0 &&
          boundary.isSegmentInside (vec2.add p0 (vec2.sub p1 p2)) p1) = false →
        (boundary.isSegmentInside (vec2.add p1 (vec2.sub p2 p0)) p1 &&
          boundary.isSegmentInside (vec2.add p1 (vec2.sub p2 p0)) p2) = false →
        (boundary.isSegmentInside (vec2.add p2 (vec2.sub p0 p1)) p2 &&
          boundary.isSegmentInside (vec2.add p2 (vec2.sub p0 p1)) p0) = true →
        convexToDisplay maxIdxFn poly boundary
            = .ok (Display.new p2 (vec2.sub p1 p2, vec2.sub (vec2.add p2 (vec2.sub p0 p1)) p2))
          ∧ (Display.new p2 (vec2.sub p1 p2,
              vec2.sub (vec2.add p2 (vec2.sub p0 p1)) p2)).getTotalDisplayCount = 1)
    ∧ ((boundary.isSegmentInside (vec2.add p0 (vec2.sub p1 p2)) p0 &&
          boundary.isSegmentInside (vec2.add p0 (vec2.sub p1 p2)) p1) = false →
        (boundary.isSegmentInside (vec2.add p1 (vec2.sub p2 p0)) p1 &&
          boundary.isSegmentInside (vec2.add p1 (vec2.sub p2 p0)) p2) = false →
        (boundary.isSegmentInside (vec2.add p2 (vec2.sub p0 p1)) p2 &&
          boundary.isSegmentInside (vec2.add p2 (vec2.sub p0 p1)) p0) = false →
        ∃ dFB : Display,
          Display.nestedDisplay (triangleToDisplays [p0, p1, p2]) = some dFB
            ∧ convexToDisplay maxIdxFn poly boundary = .ok dFB
            ∧ dFB.getTotalDisplayCount = 3) := by
  have htri : poly.isTriangle = true := by
    simp [Polygon.isTriangle, Polygon.hasHole, hpts, hh]
  have e0 : List.getD [p0, p1, p2] 0 (0, 0) = p0 := rfl
  have e1 : List.getD [p0, p1, p2] 1 (0, 0) = p1 := rfl
  have e2 : List.getD [p0, p1, p2] 2 (0, 0) = p2 := rfl
  rw [convexToDisplay, htri, if_pos rfl]
  simp only [hpts, e0, e1, e2]
  refine ⟨?_, ?_, ?_, ?_⟩
  · intro h1
    rw [if_pos h1]
    exact ⟨rfl, rfl⟩
  · intro h1 h2
    rw [if_neg (by rw [h1]; exact Bool.false_ne_true), if_pos h2]
    exact ⟨rfl, rfl⟩
  · intro h1 h2 h3
    rw [if_neg (by rw [h1]; exact Bool.false_ne_true),
      if_neg (by rw [h2]; exact Bool.false_ne_true), if_pos h3]
    exact ⟨rfl, rfl⟩
  · intro h1 h2 h3
    rw [if_neg (by rw [h1]; exact Bool.false_ne_true),
      if_neg (by rw [h2]; exact Bool.false_ne_true),
      if_neg (by rw [h3]; exact Bool.false_ne_true)]
    obtain ⟨dFB, hnest, hcount⟩ := nestedDisplay_triangle_fallback p0 p1 p2
    exact ⟨dFB, hnest, by rw [hnest], hcount⟩

set_option maxHeartbeats 1000000 in
/-- Witness for C5: the triangle `[(0,0),(1,0),(0,1)]` against a large
square boundary passes the first (`pA`) candidate and yields the single
display anchored at `(0,0)` with sides `(0,1)` and `(1,-1)`; the same
triangle against itself as boundary fails all three candidates and yields
the 3-display fallback tree. -/
theorem triangle_candidate_priority_witness :
    convexToDisplay (fun _ => 0) ⟨[(0, 0), (1, 0), (0, 1)], [], "#000"⟩
        ⟨[(-10, -10), (10, -10), (10, 10), (-10, 10)], [], "#000"⟩
      = .ok (Display.new (0, 0) ((0, 1), (1, -1)))
    ∧ ∃ dFB : Display,
        convexToDisplay (fun _ => 0) ⟨[(0, 0), (1, 0), (0, 1)], [], "#000"⟩
            ⟨[(0, 0), (1, 0), (0, 1)], [], "#000"⟩ = .ok dFB
          ∧ dFB.getTotalDisplayCount = 3 := by
  have hB1 : Polygon.isSegmentInside ⟨[(-10, -10), (10, -10), (10, 10), (-10, 10)], [], "#000"⟩
      (1, -1) (0, 0) = true := by
    simp only [Polygon.isSegmentInside, Polygon.isInside, Polygon.checkBoundary,
      Polygon.onSegB, Polygon.rayCast, Polygon.checkEdges, Polygon.intersectsStrict,
      Polygon.orient, Polygon.onSegBox, vec2.equal, vec2.add, vec2.sub, EPSILON,
      List.range_succ, List.getD, List.length_cons, List.length_nil, List.range_zero,
      List.nil_append, List.cons_append, List.any_cons, List.any_nil, List.all_cons,
      List.all_nil, List.foldl_cons, List.foldl_nil, List.get?]
    norm_num
  have hB2 : Polygon.isSegmentInside ⟨[(-10, -10), (10, -10), (10, 10), (-10, 10)], [], "#000"⟩
      (1, -1) (1, 0) = true := by
    simp only [Polygon.isSegmentInside, Polygon.isInside, Polygon.checkBoundary,
      Polygon.onSegB, Polygon.rayCast, Polygon.checkEdges, Polygon.intersectsStrict,
      Polygon.orient, Polygon.onSegBox, vec2.equal, vec2.add, vec2.sub, EPSILON,
      List.range_succ, List.getD, List.length_cons, List.length_nil, List.range_zero,
      List.nil_append, List.cons_append, List.any_cons, List.any_nil, List.all_cons,
      List.all_nil, List.foldl_cons, List.foldl_nil, List.get?]
    norm_num
  have hTa : Polygon.isSegmentInside ⟨[(0, 0), (1, 0), (0, 1)], [], "#000"⟩
      (1, -1) (0, 0) = false := by
    simp only [Polygon.isSegmentInside, Polygon.isInside, Polygon.checkBoundary,
      Polygon.onSegB, Polygon.rayCast, Polygon.checkEdges, Polygon.intersectsStrict,
      Polygon.orient, Polygon.onSegBox, vec2.equal, vec2.add, vec2.sub, EPSILON,
      List.range_succ, List.getD, List.length_cons, List.length_nil, List.range_zero,
      List.nil_append, List.cons_append, List.any_cons, List.any_nil, List.all_cons,
      List.all_nil, List.foldl_cons, List.foldl_nil, List.get?]
    norm_num
  have hTb : Polygon.isSegmentInside ⟨[(0, 0), (1, 0), (0, 1)], [], "#000"⟩
      (1, 1) (1, 0) = false := by
    simp only [Polygon.isSegmentInside, Polygon.isInside, Polygon.checkBoundary,
      Polygon.onSegB, Polygon.rayCast, Polygon.checkEdges, Polygon.intersectsStrict,
      Polygon.orient, Polygon.onSegBox, vec2.equal, vec2.add, vec2.sub, EPSILON,
      List.range_succ, List.getD, List.length_cons, List.length_nil, List.range_zero,
      List.nil_append, List.cons_append, List.any_cons, List.any_nil, List.all_cons,
      List.all_nil, List.foldl_cons, List.foldl_nil, List.get?]
    norm_num
  have hTc : Polygon.isSegmentInside ⟨[(0, 0), (1, 0), (0, 1)], [], "#000"⟩
      (-1, 1) (0, 1) = false := by
    simp only [Polygon.isSegmentInside, Polygon.isInside, Polygon.checkBoundary,
      Polygon.onSegB, Polygon.rayCast, Polygon.checkEdges, Polygon.intersectsStrict,
      Polygon.orient, Polygon.onSegBox, vec2.equal, vec2.add, vec2.sub, EPSILON,
      List.range_succ, List.getD, List.length_cons, List.length_nil, List.range_zero,
      List.nil_append, List.cons_append, List.any_cons, List.any_nil, List.all_cons,
      List.all_nil, List.foldl_cons, List.foldl_nil, List.get?]
    norm_num
  have eA : vec2.add (0, 0) (vec2.sub (1, 0) (0, 1)) = ((1 : ℚ), (-1 : ℚ)) := by
    norm_num [vec2.add, vec2.sub]
  have eB : vec2.add (1, 0) (vec2.sub (0, 1) (0, 0)) = ((1 : ℚ), (1 : ℚ)) := by
    norm_num [vec2.add, vec2.sub]
  have eC : vec2.add (0, 1) (vec2.sub (0, 0) (1, 0)) = ((-1 : ℚ), (1 : ℚ)) := by
    norm_num [vec2.add, vec2.sub]
  constructor
  · have h := (triangle_candidate_priority (fun _ => 0)
      ⟨[(0, 0), (1, 0), (0, 1)], [], "#000"⟩
      ⟨[(-10, -10), (10, -10), (10, 10), (-10, 10)], [], "#000"⟩
      (0, 0) (1, 0) (0, 1) rfl rfl).1
      (by rw [eA, hB1, hB2]; rfl)
    rw [h.1, eA]
    norm_num [vec2.sub]
  · obtain ⟨dFB, _, hok, hcount⟩ := (triangle_candidate_priority (fun _ => 0)
      ⟨[(0, 0), (1, 0), (0, 1)], [], "#000"⟩ ⟨[(0, 0), (1, 0), (0, 1)], [], "#000"⟩
      (0, 0) (1, 0) (0, 1) rfl rfl).2.2.2
      (by rw [eA, hTa]; exact Bool.false_and _)
      (by rw [eB, hTb]; exact Bool.false_and _)
      (by rw [eC, hTc]; exact Bool.false_and _)
    exact ⟨dFB, hok, hcount⟩

/-- Helper: a ring with fewer than 3 points is never counterclockwise (the
edge sum telescopes to 0 for 0, 1 or 2 points). -/
theorem isCounterClockwise_short (pts : List Vec2) (h : pts.length < 3) :
    Polygon.isCounterClockwise pts = false := by
  match pts, h with
  | [], _ => rfl
  | [a], _ =>
    simp only [Polygon.isCounterClockwise, List.length_cons, List.length_nil, List.range_succ,
      List.range_zero, List.nil_append, List.foldl_cons, List.foldl_nil, List.getD,
      List.get?, decide_eq_false_iff_not, not_lt]
    norm_num
  | [a, b], _ =>
    simp only [Polygon.isCounterClockwise, List.length_cons, List.length_nil, List.range_succ,
      List.range_zero, List.nil_append, List.cons_append, List.foldl_cons, List.foldl_nil,
      List.getD, List.get?, decide_eq_false_iff_not, not_lt]
    norm_num
    ring_nf
    norm_num
  | _ :: _ :: _ :: _, h =>
    simp only [List.length_cons] at h
    omega

/-- C3 counterexample: the clockwise triangle `[(0,0),(0,1),(1,0)]` is not
convex per `isConvex`, yet the converter silently returns a display for it
(no error is signalled) — the triangle branch runs before the convexity
check. -/
theorem converter_nonconvex_silent_counterexample :
    Polygon.isConvex ⟨[(0, 0), (0, 1), (1, 0)], [], "#000"⟩ = false
    ∧ isErr (convexToDisplay (fun _ => 0) ⟨[(0, 0), (0, 1), (1, 0)], [], "#000"⟩
        ⟨[(0, 0), (0, 1), (1, 0)], [], "#000"⟩) = false := by
  constructor
  · norm_num [Polygon.isConvex, Polygon.isCounterClockwise, List.range_succ, List.getD]
  · have hCa : Polygon.isSegmentInside ⟨[(0, 0), (0, 1), (1, 0)], [], "#000"⟩
        (-1, 1) (0, 0) = false := by
      simp only [Polygon.isSegmentInside, Polygon.isInside, Polygon.checkBoundary,
        Polygon.onSegB, Polygon.rayCast, Polygon.checkEdges, Polygon.intersectsStrict,
        Polygon.orient, Polygon.onSegBox, vec2.equal, vec2.add, vec2.sub, EPSILON,
        List.range_succ, List.getD, List.length_cons, List.length_nil, List.range_zero,
        List.nil_append, List.cons_append, List.any_cons, List.any_nil, List.all_cons,
        List.all_nil, List.foldl_cons, List.foldl_nil, List.get?]
      norm_num
    have hCb : Polygon.isSegmentInside ⟨[(0, 0), (0, 1), (1, 0)], [], "#000"⟩
        (1, 1) (0, 1) = false := by
      simp only [Polygon.isSegmentInside, Polygon.isInside, Polygon.checkBoundary,
        Polygon.onSegB, Polygon.rayCast, Polygon.checkEdges, Polygon.intersectsStrict,
        Polygon.orient, Polygon.onSegBox, vec2.equal, vec2.add, vec2.sub, EPSILON,
        List.range_succ, List.getD, List.length_cons, List.length_nil, List.range_zero,
        List.nil_append, List.cons_append, List.any_cons, List.any_nil, List.all_cons,
        List.all_nil, List.foldl_cons, List.foldl_nil, List.get?]
      norm_num
    have hCc : Polygon.isSegmentInside ⟨[(0, 0), (0, 1), (1, 0)], [], "#000"⟩
        (1, -1) (1, 0) = false := by
      simp only [Polygon.isSegmentInside, Polygon.isInside, Polygon.checkBoundary,
        Polygon.onSegB, Polygon.rayCast, Polygon.checkEdges, Polygon.intersectsStrict,
        Polygon.orient, Polygon.onSegBox, vec2.equal, vec2.add, vec2.sub, EPSILON,
        List.range_succ, List.getD, List.length_cons, List.length_nil, List.range_zero,
        List.nil_append, List.cons_append, List.any_cons, List.any_nil, List.all_cons,
        List.all_nil, List.foldl_cons, List.foldl_nil, List.get?]
      norm_num
    have eA : vec2.add (0, 0) (vec2.sub (0, 1) (1, 0)) = ((-1 : ℚ), (1 : ℚ)) := by
      norm_num [vec2.add, vec2.sub]
    have eB : vec2.add (0, 1) (vec2.sub (1, 0) (0, 0)) = ((1 : ℚ), (1 : ℚ)) := by
      norm_num [vec2.add, vec2.sub]
    have eC : vec2.add (1, 0) (vec2.sub (0, 0) (0, 1)) = ((1 : ℚ), (-1 : ℚ)) := by
      norm_num [vec2.add, vec2.sub]
    have e0 : List.getD [((0 : ℚ), (0 : ℚ)), (0, 1), (1, 0)] 0 (0, 0) = (0, 0) := rfl
    have e1 : List.getD [((0 : ℚ), (0 : ℚ)), (0, 1), (1, 0)] 1 (0, 0) = (0, 1) := rfl
    have e2 : List.getD [((0 : ℚ), (0 : ℚ)), (0, 1), (1, 0)] 2 (0, 0) = (1, 0) := rfl
    have htri : Polygon.isTriangle ⟨[(0, 0), (0, 1), (1, 0)], [], "#000"⟩ = true := rfl
    rw [convexToDisplay, htri, if_pos rfl]
    simp only [e0, e1, e2, eA, eB, eC]
    rw [if_neg (by rw [hCa]; exact fun hfalse => Bool.false_ne_true ((Bool.false_and _) ▸ hfalse)),
      if_neg (by rw [hCb]; exact fun hfalse => Bool.false_ne_true ((Bool.false_and _) ▸ hfalse)),
      if_neg (by rw [hCc]; exact fun hfalse => Bool.false_ne_true ((Bool.false_and _) ▸ hfalse))]
    obtain ⟨dFB, hnest, _⟩ := nestedDisplay_triangle_fallback (0, 0) (0, 1) (1, 0)
    rw [hnest]
    rfl

/-- C3 (amended): the converter throws for every polygon with fewer than 3
points, and for every polygon that is neither a triangle nor an
`isParallelogram` 4-gon and fails `isConvex`; but a non-convex polygon that
*is* a triangle or passes `isParallelogram` (e.g. clockwise-wound) is
converted silently — see the counterexample. -/
theorem converter_error_conditions (maxIdxFn : Polygon → ℕ) (poly boundary : Polygon) :
    (poly.points.length < 3 → isErr (convexToDisplay maxIdxFn poly boundary) = true)
    ∧ (poly.isTriangle = false → poly.isParallelogram = false → poly.isConvex = false →
        isErr (convexToDisplay maxIdxFn poly boundary) = true) := by
  have step : poly.isTriangle = false → poly.isParallelogram = false →
      poly.isConvex = false → isErr (convexToDisplay maxIdxFn poly boundary) = true := by
    intro h1 h2 h3
    rw [convexToDisplay, h1, h2, h3]
    simp [isErr]
  refine ⟨?_, step⟩
  intro hlen
  have h1 : poly.isTriangle = false := by
    simp only [Polygon.isTriangle, Bool.and_eq_false_iff, decide_eq_false_iff_not]
    right
    omega
  have h2 : poly.isParallelogram = false := by
    rw [Polygon.isParallelogram, if_pos]
    simp only [Bool.or_eq_true, Bool.not_eq_true', decide_eq_false_iff_not]
    right
    omega
  have h3 : poly.isConvex = false := by
    rw [Polygon.isConvex, isCounterClockwise_short poly.points hlen]
    rfl
  exact step h1 h2 h3

/-- Witness for C3's amended theorem: a 2-point polygon (fewer than 3
points) makes the converter throw. -/
theorem converter_error_conditions_witness :
    isErr (convexToDisplay (fun _ => 0) ⟨[(0, 0), (1, 0)], [], "#000"⟩
        ⟨[(0, 0), (1, 0)], [], "#000"⟩) = true :=
  (converter_error_conditions (fun _ => 0) ⟨[(0, 0), (1, 0)], [], "#000"⟩
    ⟨[(0, 0), (1, 0)], [], "#000"⟩).1 (by norm_num)

/-- Helper: a successful merge candidate passed the `isConvex` test. -/
theorem canMergeCandidate_convex (a b c : Polygon)
    (h : canMergeCandidate a b = some c) : c.isConvex = true := by
  simp only [canMergeCandidate] at h
  split at h
  · split at h
    · rename_i hc
      injection h with h
      subst h
      exact hc
    · exact absurd h (by simp)
  · exact absurd h (by simp)

/-- Helper: a piece produced by `tryMergeWith` is a `GoodPiece`, and the
returned remainder is a sublist of the input. -/
theorem tryMergeWith_spec (a : Polygon) : ∀ (l : List Polygon) (m : Polygon)
    (l' : List Polygon), tryMergeWith a l = some (m, l') →
    GoodPiece m ∧ ∀ x ∈ l', x ∈ l := by
  intro l
  induction l with
  | nil => intro m l' h; exact absurd h (by simp [tryMergeWith])
  | cons b bs ih =>
    intro m l' h
    rw [tryMergeWith] at h
    rcases hc : canMergeCandidate a b with _ | cand <;> rw [hc] at h
    · rcases ht : tryMergeWith a bs with _ | ⟨mm, ll⟩ <;> rw [ht] at h
      · exact absurd h (by simp)
      · injection h with h
        injection h with hm hl
        subst hm
        subst hl
        obtain ⟨hg, hsub⟩ := ih mm ll ht
        refine ⟨hg, ?_⟩
        intro x hx
        rcases List.mem_cons.mp hx with hx | hx
        · exact hx ▸ List.mem_cons_self b _
        · exact List.mem_cons_of_mem b (hsub x hx)
    · injection h with h
      injection h with hm hl
      subst hm
      subst hl
      refine ⟨Or.inr ⟨cand, canMergeCandidate_convex a b cand hc, rfl⟩, ?_⟩
      intro x hx
      exact List.mem_cons_of_mem b hx

/-- Helper: every piece after one scan round is an input piece or a
`GoodPiece`. -/
theorem mergeScan_spec : ∀ (l l' : List Polygon), mergeScan l = some l' →
    ∀ x ∈ l', x ∈ l ∨ GoodPiece x := by
  intro l
  induction l with
  | nil => intro l' h; exact absurd h (by simp [mergeScan])
  | cons a rest ih =>
    intro l' h
    rw [mergeScan] at h
    rcases ht : tryMergeWith a rest with _ | ⟨mm, ll⟩ <;> rw [ht] at h
    · rcases hs : mergeScan rest with _ | l'' <;> rw [hs] at h
      · exact absurd h (by simp)
      · injection h with h
        subst h
        intro x hx
        rcases List.mem_cons.mp hx with hx | hx
        · exact Or.inl (hx ▸ List.mem_cons_self a _)
        · rcases ih l'' hs x hx with hm | hg
          · exact Or.inl (List.mem_cons_of_mem a hm)
          · exact Or.inr hg
    · injection h with h
      subst h
      intro x hx
      obtain ⟨hg, hsub⟩ := tryMergeWith_spec a rest mm ll ht
      rcases List.mem_append.mp hx with hx | hx
      · exact Or.inl (List.mem_cons_of_mem a (hsub x hx))
      · rcases List.mem_singleton.mp hx with rfl
        exact Or.inr hg

/-- Helper: the merge loop only ever holds input pieces or `GoodPiece`s. -/
theorem mergeLoopFuel_spec : ∀ (fuel : ℕ) (ps : List Polygon),
    (∀ x ∈ ps, GoodPiece x) → ∀ x ∈ mergeLoopFuel fuel ps, GoodPiece x := by
  intro fuel
  induction fuel with
  | zero => intro ps hps; exact hps
  | succ n ih =>
    intro ps hps
    rw [mergeLoopFuel]
    rcases hs : mergeScan ps with _ | ps'
    · exact hps
    · refine ih ps' ?_
      intro x hx
      rcases mergeScan_spec ps ps' hs x hx with hm | hg
      · exact hps x hm
      · exact hg

/-- Helper: every triangle emitted by `toTriangles` passes `isConvex`. -/
theorem toTriangles_convex (tess : List (List ℚ) → List ℚ) (polygons : List Polygon) :
    ∀ x ∈ toTriangles tess polygons, x.isConvex = true := by
  intro x hx
  simp only [toTriangles, List.mem_flatMap, List.mem_filter, List.mem_map] at hx
  obtain ⟨_, _, _, hconv⟩ := hx
  exact hconv

/-- Helper: `clone` returns an equal polygon (the deep copy is
value-identical). -/
theorem Polygon.clone_eq (p : Polygon) : p.clone = p := by
  simp [Polygon.clone]

/-- C2 (amended): every piece returned by `convexDecomposition` is convex,
or is the unchanged input itself (the sole output whenever the input is a
Triangle or already passes `isConvex` — including a clockwise triangle,
which is returned unchanged although it is *not* convex, see the
counterexample), or is the `simplify()` of a merged ring that passed
`isConvex` before colinear-vertex removal (the loop checks convexity on
the candidate, then pushes its simplification); in particular a Triangle
or convex input is returned unchanged as the sole output piece. -/
theorem convexDecomposition_piece_guarantee (tess : List (List ℚ) → List ℚ) (poly : Polygon) :
    (∀ p ∈ convexDecomposition tess poly,
        p.isConvex = true
          ∨ (p = poly ∧ (poly.isTriangle = true ∨ poly.isConvex = true))
          ∨ ∃ q : Polygon, q.isConvex = true ∧ p = q.simplify)
    ∧ ((poly.isTriangle = true ∨ poly.isConvex = true) →
        convexDecomposition tess poly = [poly]) := by
  constructor
  · intro p hp
    simp only [convexDecomposition, Polygon.clone_eq] at hp
    rcases hb : (poly.isTriangle || poly.isConvex) with _ | _
    · rw [hb] at hp
      simp only [Bool.false_eq_true, if_false] at hp
      have hgood := mergeLoopFuel_spec (toTriangles tess [poly]).length (toTriangles tess [poly])
        (fun x hx => Or.inl (toTriangles_convex tess [poly] x hx)) p (by exact hp)
      rcases hgood with hg | hg
      · exact Or.inl hg
      · exact Or.inr (Or.inr hg)
    · rw [hb] at hp
      simp only [if_true] at hp
      rcases List.mem_singleton.mp hp with rfl
      exact Or.inr (Or.inl ⟨rfl, by simpa using hb⟩)
  · intro h
    simp only [convexDecomposition, Polygon.clone_eq]
    rw [if_pos]
    rcases h with h | h <;> simp [h]

/-- C2 counterexample: the clockwise triangle `[(0,0),(0,1),(1,0)]` is
returned unchanged as the sole piece of its own decomposition, and that
piece fails `isConvex` — so not every returned piece is convex. -/
theorem convexDecomposition_nonconvex_piece_counterexample :
    convexDecomposition (fun _ => []) ⟨[(0, 0), (0, 1), (1, 0)], [], "#000"⟩
        = [⟨[(0, 0), (0, 1), (1, 0)], [], "#000"⟩]
    ∧ Polygon.isConvex ⟨[(0, 0), (0, 1), (1, 0)], [], "#000"⟩ = false := by
  constructor
  · simp only [convexDecomposition, Polygon.clone_eq]
    rw [if_pos]
    rw [show Polygon.isTriangle ⟨[(0, 0), (0, 1), (1, 0)], [], "#000"⟩ = true from rfl,
      Bool.true_or]
  · norm_num [Polygon.isConvex, Polygon.isCounterClockwise, List.range_succ, List.getD]

/-- Witness for C2's amended theorem: the counterclockwise triangle
`[(0,0),(1,0),(0,1)]` is returned unchanged as the sole piece, and the
per-piece guarantee holds for it. -/
theorem convexDecomposition_piece_guarantee_witness :
    convexDecomposition (fun _ => []) ⟨[(0, 0), (1, 0), (0, 1)], [], "#000"⟩
        = [⟨[(0, 0), (1, 0), (0, 1)], [], "#000"⟩]
    ∧ (Polygon.isConvex ⟨[(0, 0), (1, 0), (0, 1)], [], "#000"⟩ = true
        ∨ ((⟨[(0, 0), (1, 0), (0, 1)], [], "#000"⟩ : Polygon)
              = ⟨[(0, 0), (1, 0), (0, 1)], [], "#000"⟩
            ∧ (Polygon.isTriangle ⟨[(0, 0), (1, 0), (0, 1)], [], "#000"⟩ = true
              ∨ Polygon.isConvex ⟨[(0, 0), (1, 0), (0, 1)], [], "#000"⟩ = true))
        ∨ ∃ q : Polygon, q.isConvex = true
            ∧ (⟨[(0, 0), (1, 0), (0, 1)], [], "#000"⟩ : Polygon) = q.simplify) := by
  have h := convexDecomposition_piece_guarantee (fun _ => [])
    ⟨[(0, 0), (1, 0), (0, 1)], [], "#000"⟩
  have heq := h.2 (Or.inl rfl)
  exact ⟨heq, h.1 _ (by rw [heq]; exact List.mem_singleton_self _)⟩

/-- Faithfulness of `vec2.sqrtClose`: on nonnegative rationals it decides
exactly the real-number comparison `|sqrt a - sqrt b| < EPSILON` that the
source's length-equality test performs. -/
theorem vec2.sqrtClose_iff_sqrt_lt (a b : ℚ) (ha : 0 ≤ a) (hb : 0 ≤ b) :
    vec2.sqrtClose a b = true
      ↔ |Real.sqrt (a : ℝ) - Real.sqrt (b : ℝ)| < ((EPSILON : ℚ) : ℝ) := by
  have hx : (0 : ℝ) ≤ (a : ℝ) := by exact_mod_cast ha
  have hy : (0 : ℝ) ≤ (b : ℝ) := by exact_mod_cast hb
  have heps : (0 : ℝ) < ((EPSILON : ℚ) : ℝ) := by norm_num [EPSILON]
  have hxx : Real.sqrt (a : ℝ) ^ 2 = (a : ℝ) := Real.sq_sqrt hx
  have hyy : Real.sqrt (b : ℝ) ^ 2 = (b : ℝ) := Real.sq_sqrt hy
  have hxy : Real.sqrt ((a : ℝ) * b) = Real.sqrt (a : ℝ) * Real.sqrt (b : ℝ) :=
    Real.sqrt_mul hx _
  have hsqnn : (0 : ℝ) ≤ Real.sqrt ((a : ℝ) * b) := Real.sqrt_nonneg _
  have key : |Real.sqrt (a : ℝ) - Real.sqrt (b : ℝ)| < ((EPSILON : ℚ) : ℝ)
      ↔ (a : ℝ) + b - ((EPSILON : ℚ) : ℝ) ^ 2 < 2 * Real.sqrt ((a : ℝ) * b) := by
    constructor
    · intro h
      have h2 : (Real.sqrt (a : ℝ) - Real.sqrt (b : ℝ)) ^ 2 < ((EPSILON : ℚ) : ℝ) ^ 2 := by
        nlinarith [sq_abs (Real.sqrt (a : ℝ) - Real.sqrt (b : ℝ)),
          abs_nonneg (Real.sqrt (a : ℝ) - Real.sqrt (b : ℝ))]
      nlinarith [hxx, hyy, hxy]
    · intro h
      have h2 : (Real.sqrt (a : ℝ) - Real.sqrt (b : ℝ)) ^ 2 < ((EPSILON : ℚ) : ℝ) ^ 2 := by
        nlinarith [hxx, hyy, hxy]
      calc |Real.sqrt (a : ℝ) - Real.sqrt (b : ℝ)|
          = Real.sqrt ((Real.sqrt (a : ℝ) - Real.sqrt (b : ℝ)) ^ 2) :=
            (Real.sqrt_sq_eq_abs _).symm
        _ < Real.sqrt (((EPSILON : ℚ) : ℝ) ^ 2) := Real.sqrt_lt_sqrt (sq_nonneg _) h2
        _ = ((EPSILON : ℚ) : ℝ) := Real.sqrt_sq heps.le
  rw [key]
  simp only [vec2.sqrtClose, Bool.or_eq_true, decide_eq_true_eq]
  constructor
  · rintro (h | h)
    · have h' : (a : ℝ) + b - ((EPSILON : ℚ) : ℝ) ^ 2 < 0 := by
        have := (Rat.cast_lt (K := ℝ)).mpr h
        push_cast at this
        linarith
      linarith [hsqnn]
    · have h' : ((a : ℝ) + b - ((EPSILON : ℚ) : ℝ) ^ 2) ^ 2 < 4 * (a : ℝ) * b := by
        have := (Rat.cast_lt (K := ℝ)).mpr h
        push_cast at this
        linarith
      rcases lt_or_le ((a : ℝ) + b - ((EPSILON : ℚ) : ℝ) ^ 2) 0 with hs | hs
      · linarith [hsqnn]
      · have hlt := (Real.lt_sqrt hs).mpr
          (show ((a : ℝ) + b - ((EPSILON : ℚ) : ℝ) ^ 2) ^ 2 < 4 * ((a : ℝ) * b) by linarith)
        have h4 : Real.sqrt (4 * ((a : ℝ) * b)) = 2 * Real.sqrt ((a : ℝ) * b) := by
          rw [Real.sqrt_mul (by norm_num : (0 : ℝ) ≤ 4)]
          rw [show (4 : ℝ) = 2 ^ 2 by norm_num, Real.sqrt_sq (by norm_num : (0 : ℝ) ≤ 2)]
        linarith [h4 ▸ hlt]
  · intro h
    rcases lt_or_le (a + b - EPSILON ^ 2) 0 with hs | hs
    · exact Or.inl hs
    · right
      have hsR : (0 : ℝ) ≤ (a : ℝ) + b - ((EPSILON : ℚ) : ℝ) ^ 2 := by
        have := (Rat.cast_le (K := ℝ)).mpr hs
        push_cast at this
        linarith
      have hlt : ((a : ℝ) + b - ((EPSILON : ℚ) : ℝ) ^ 2) ^ 2
          < (2 * Real.sqrt ((a : ℝ) * b)) ^ 2 := by
        apply sq_lt_sq' (by linarith [hsqnn]) h
      have hsq : (2 * Real.sqrt ((a : ℝ) * b)) ^ 2 = 4 * (a : ℝ) * b := by
        rw [mul_pow, Real.sq_sqrt (by positivity)]
        ring
      have hfin : ((a : ℝ) + b - ((EPSILON : ℚ) : ℝ) ^ 2) ^ 2 < 4 * (a : ℝ) * b := by
        linarith [hsq ▸ hlt]
      have : ((((a + b - EPSILON ^ 2) ^ 2 : ℚ)) : ℝ) < (((4 * a * b : ℚ)) : ℝ) := by
        push_cast
        linarith
      exact_mod_cast this
